import Mathlib

/-!
Verification development for `src/consumers/consumer_webb.py`.

The program tails a newline-delimited JSON file and maintains a SQLite table
`keyword_popularity(hour_of_day, keyword, count, last_updated)` with a
UNIQUE(hour_of_day, keyword) constraint.  We embed the pure content of each
function shallowly:

* the SQLite table is a list of rows (the surrogate `id` column is an
  implementation detail and is not modelled; row order models insertion order);
* `datetime.now()` is passed in as an explicit `now : String`;
* exceptions raised by the environment (sqlite, the filesystem) are modelled
  by explicit boolean error flags, since the Python code branches only on
  whether such an exception occurred, never on its contents;
* `sys.exit(n)` is modelled as `Except.error n`;
* `json.loads` is a stdlib function, so a raw line is modelled by the outcome
  the consumer observes: blank after `strip()`, a decode error, or a decoded
  value (with only the two fields the consumer reads, both read via
  `dict.get`, modelled as `Option String`); each line also carries its byte
  length so that the file offset (`file.tell()`) can be computed.
-/

namespace ConsumerWebb

/-! ### Model of `datetime.strptime(s, "%Y-%m-%d %H:%M:%S")` (stdlib, used at
`consumer_webb.py` line 155).

CPython `_strptime` compiles the format to a regex (with `re.IGNORECASE`),
matches it against the whole input, and then validates the captured values
through the `datetime` constructor.  `TimeRE.pattern` first replaces every
whitespace run in the format with `\s+`, so the single space of this format
matches one or more whitespace characters; the literal `-` and `:` stay
literal.  The directive regexes are `%Y` = `\d\d\d\d`,
`%m` = `1[0-2]|0[1-9]|[1-9]`, `%d` = `3[01]|[12]\d|0[1-9]|[1-9]| [1-9]`,
`%H` = `2[0-3]|[0-1]\d|\d`, `%M` = `[0-5]\d|\d`, `%S` = `6[0-1]|[0-5]\d|\d`,
and trailing unconverted data is an error.  In these regexes the bracketed
classes and the literals `2`, `3`, `6` are ASCII, while `\d` matches any
Unicode decimal digit (category Nd) and `\s` any regex whitespace character;
`int()` converts Unicode digits by their decimal value.  For this fixed
format, committing greedily to the first alternative that matches is
equivalent to full regex backtracking: every field is followed by a
non-digit literal, the whitespace separator, or the end of the string, so a
longer match that fails its continuation can never be rescued by a shorter
one.  The `datetime` constructor additionally requires `year >= 1`, `day`
at most the length of the month, and `second <= 59`. -/

/-- Result of a successful `datetime.strptime` call: the six parsed
components.  The consumer only ever reads `.hour`. -/
structure PyDateTime where
  year : Nat
  month : Nat
  day : Nat
  hour : Nat
  minute : Nat
  second : Nat
deriving DecidableEq

/-- Numeric value of an ASCII digit character (used for the ASCII-literal
character classes of the directive regexes). -/
def digitVal (c : Char) : Nat := c.toNat - 48

/-- First code points of the aligned decades of Unicode decimal digits
(category Nd): each start `s` begins a run `s .. s+9` of digits with values
0..9.  Generated from CPython 3.11 / Unicode 14.0 `unicodedata`. -/
def digitDecadeStarts : List Nat :=
  [0x30, 0x660, 0x6F0, 0x7C0, 0x966, 0x9E6, 0xA66, 0xAE6, 0xB66, 0xBE6,
   0xC66, 0xCE6, 0xD66, 0xDE6, 0xE50, 0xED0, 0xF20, 0x1040, 0x1090, 0x17E0,
   0x1810, 0x1946, 0x19D0, 0x1A80, 0x1A90, 0x1B50, 0x1BB0, 0x1C40, 0x1C50,
   0xA620, 0xA8D0, 0xA900, 0xA9D0, 0xA9F0, 0xAA50, 0xABF0, 0xFF10, 0x104A0,
   0x10D30, 0x11066, 0x110F0, 0x11136, 0x111D0, 0x112F0, 0x11450, 0x114D0,
   0x11650, 0x116C0, 0x11730, 0x118E0, 0x11950, 0x11C50, 0x11D50, 0x11DA0,
   0x16A60, 0x16AC0, 0x16B50, 0x1D7CE, 0x1D7D8, 0x1D7E2, 0x1D7EC, 0x1D7F6,
   0x1E140, 0x1E2F0, 0x1E950, 0x1FBF0]

/-- Decimal value of a character under Python `\d` + `int()`: `some v` when
the character is a Unicode decimal digit of value `v`, `none` otherwise. -/
def pyDigitVal (c : Char) : Option Nat :=
  (digitDecadeStarts.find? (fun s => s ≤ c.toNat && c.toNat < s + 10)).map
    (fun s => c.toNat - s)

/-- Python regex `\d` for str patterns: any Unicode decimal digit. -/
def pyIsDigit (c : Char) : Bool := (pyDigitVal c).isSome

/-- Python regex `\s` for str patterns: ASCII whitespace, the C1 separators
and NEL, and the Unicode space characters. -/
def pyIsSpace (c : Char) : Bool :=
  (0x9 ≤ c.toNat && c.toNat ≤ 0xD) || (0x1C ≤ c.toNat && c.toNat ≤ 0x20) ||
  c.toNat == 0x85 || c.toNat == 0xA0 || c.toNat == 0x1680 ||
  (0x2000 ≤ c.toNat && c.toNat ≤ 0x200A) || c.toNat == 0x2028 ||
  c.toNat == 0x2029 || c.toNat == 0x202F || c.toNat == 0x205F ||
  c.toNat == 0x3000

/-- The `\s+` the format's space compiles to: one or more whitespace
characters (greedily; the following directive starts with a digit, which is
never whitespace, so greediness is harmless). -/
def matchSpaces : List Char → Option (List Char)
  | c :: rest => if pyIsSpace c then some (rest.dropWhile pyIsSpace) else none
  | [] => none

/-- Directive `%Y` = `\d\d\d\d`: exactly four Unicode decimal digits. -/
def matchYear : List Char → Option (Nat × List Char)
  | a :: b :: c :: d :: rest =>
    match pyDigitVal a, pyDigitVal b, pyDigitVal c, pyDigitVal d with
    | some va, some vb, some vc, some vd =>
      some (1000 * va + 100 * vb + 10 * vc + vd, rest)
    | _, _, _, _ => none
  | _ => none

/-- Directive `%m` = `1[0-2]|0[1-9]|[1-9]`: all classes are ASCII literals.
The two-digit alternatives together accept exactly the ASCII pairs with
value 1..12; otherwise a single ASCII digit 1..9. -/
def matchMonth : List Char → Option (Nat × List Char)
  | a :: b :: rest =>
    if a.isDigit && b.isDigit && decide (1 ≤ 10 * digitVal a + digitVal b) &&
        decide (10 * digitVal a + digitVal b ≤ 12) then
      some (10 * digitVal a + digitVal b, rest)
    else if a.isDigit && decide (1 ≤ digitVal a) then some (digitVal a, b :: rest)
    else none
  | [a] => if a.isDigit && decide (1 ≤ digitVal a) then some (digitVal a, []) else none
  | [] => none

/-- Directive `%d` = `3[01]|[12]\d|0[1-9]|[1-9]| [1-9]`, alternatives in
regex order: `3` and the bracketed classes are ASCII, the `\d` after `[12]`
is any Unicode digit, and the last alternative is an ASCII space followed by
an ASCII digit 1..9. -/
def matchDay : List Char → Option (Nat × List Char)
  | a :: b :: rest =>
    if a == '3' && (b == '0' || b == '1') then some (30 + digitVal b, rest)
    else if (a == '1' || a == '2') && pyIsDigit b then
      some (10 * digitVal a + (pyDigitVal b).getD 0, rest)
    else if a == '0' && b.isDigit && decide (1 ≤ digitVal b) then some (digitVal b, rest)
    else if a.isDigit && decide (1 ≤ digitVal a) then some (digitVal a, b :: rest)
    else if a == ' ' && b.isDigit && decide (1 ≤ digitVal b) then some (digitVal b, rest)
    else none
  | [a] => if a.isDigit && decide (1 ≤ digitVal a) then some (digitVal a, []) else none
  | [] => none

/-- Directive `%H` = `2[0-3]|[0-1]\d|\d`: leading `2`, `[0-3]`, `[0-1]` are
ASCII; both `\d` are Unicode digits. -/
def matchHour : List Char → Option (Nat × List Char)
  | a :: b :: rest =>
    if a == '2' && b.isDigit && decide (digitVal b ≤ 3) then some (20 + digitVal b, rest)
    else if (a == '0' || a == '1') && pyIsDigit b then
      some (10 * digitVal a + (pyDigitVal b).getD 0, rest)
    else if pyIsDigit a then some ((pyDigitVal a).getD 0, b :: rest)
    else none
  | [a] => if pyIsDigit a then some ((pyDigitVal a).getD 0, []) else none
  | [] => none

/-- Directive `%M` = `[0-5]\d|\d`: `[0-5]` is ASCII, both `\d` Unicode. -/
def matchMinute : List Char → Option (Nat × List Char)
  | a :: b :: rest =>
    if a.isDigit && decide (digitVal a ≤ 5) && pyIsDigit b then
      some (10 * digitVal a + (pyDigitVal b).getD 0, rest)
    else if pyIsDigit a then some ((pyDigitVal a).getD 0, b :: rest)
    else none
  | [a] => if pyIsDigit a then some ((pyDigitVal a).getD 0, []) else none
  | [] => none

/-- Directive `%S` = `6[0-1]|[0-5]\d|\d`: `6`, `[0-1]`, `[0-5]` are ASCII,
both `\d` Unicode. -/
def matchSecond : List Char → Option (Nat × List Char)
  | a :: b :: rest =>
    if a == '6' && (b == '0' || b == '1') then some (60 + digitVal b, rest)
    else if a.isDigit && decide (digitVal a ≤ 5) && pyIsDigit b then
      some (10 * digitVal a + (pyDigitVal b).getD 0, rest)
    else if pyIsDigit a then some ((pyDigitVal a).getD 0, b :: rest)
    else none
  | [a] => if pyIsDigit a then some ((pyDigitVal a).getD 0, []) else none
  | [] => none

/-- Gregorian leap-year test, as in `calendar.isleap`. -/
def isLeapYear (y : Nat) : Bool := y % 4 == 0 && (y % 100 != 0 || y % 400 == 0)

/-- Number of days in a month, as validated by the `datetime` constructor. -/
def daysInMonth (y m : Nat) : Nat :=
  if m == 2 then (if isLeapYear y then 29 else 28)
  else if m == 4 || m == 6 || m == 9 || m == 11 then 30
  else 31

/-- A literal separator character of the format string. -/
def lit (c : Char) : List Char → Option (List Char)
  | x :: rest => if x == c then some rest else none
  | [] => none

/-- Model of `datetime.strptime(s, "%Y-%m-%d %H:%M:%S")`: `none` when the call
raises `ValueError` (no regex match, trailing unconverted data, or a value
rejected by the `datetime` constructor), `some` with the parsed components
otherwise. -/
def strptimeYmdHms (s : String) : Option PyDateTime := do
  let (y, cs) ← matchYear s.data
  let cs ← lit '-' cs
  let (mo, cs) ← matchMonth cs
  let cs ← lit '-' cs
  let (d, cs) ← matchDay cs
  let cs ← matchSpaces cs
  let (h, cs) ← matchHour cs
  let cs ← lit ':' cs
  let (mi, cs) ← matchMinute cs
  let cs ← lit ':' cs
  let (sec, cs) ← matchSecond cs
  if cs.isEmpty && decide (1 ≤ y) && decide (d ≤ daysInMonth y mo) && decide (sec ≤ 59) then
    some ⟨y, mo, d, h, mi, sec⟩
  else none

/-! ### Model of a decoded message and of `process_message` (lines 137-167). -/

/-- Outcome of a successful `json.loads` on a line, as observed by
`process_message`: either a dict, from which only the `"timestamp"` and
`"keyword_mentioned"` fields are read via `dict.get` (absent field =
`none`; the record format gives both fields as strings), or a non-dict JSON
value, on which `.get` raises `AttributeError`. -/
inductive ParsedJson where
  | obj (timestamp : Option String) (keyword_mentioned : Option String)
  | nonDict
deriving DecidableEq

/-- Model of `process_message` (lines 137-167).  Returns `none` where the
Python function returns `None`: a missing or empty (falsy) `timestamp` or
`keyword_mentioned` field, a timestamp `strptime` rejects (the raised
`ValueError` is caught by the function's own `except`), or a non-dict
message (`.get` raises `AttributeError`, also caught).  Otherwise returns
the contents of the `processed_data` dict: the timestamp's hour component
and the keyword. -/
def process_message : ParsedJson → Option (Nat × String)
  | .nonDict => none
  | .obj ts kw =>
    match ts, kw with
    | some t, some k =>
      if t.isEmpty || k.isEmpty then none
      else
        match strptimeYmdHms t with
        | some dt => some (dt.hour, k)
        | none => none
    | _, _ => none

/-! ### Model of the `keyword_popularity` table and its operations. -/

/-- One row of the `keyword_popularity` table (line 66-77); the surrogate
autoincrement `id` is not modelled. -/
structure Row where
  hour_of_day : Nat
  keyword : String
  count : Nat
  last_updated : String
deriving DecidableEq

/-- The table contents, in insertion order. -/
abbrev Table := List Row

/-- The aggregation key of a row: the pair covered by the UNIQUE constraint. -/
def keyOf (r : Row) : Nat × String := (r.hour_of_day, r.keyword)

/-- Whether a row matches the `WHERE hour_of_day = ? AND keyword = ?` clause. -/
def isKey (h : Nat) (kw : String) (r : Row) : Bool := decide (keyOf r = (h, kw))

/-- Effect of the `UPDATE ... SET count = count + 1, last_updated = ?` on one
row: matching rows are incremented and re-stamped, others are untouched. -/
def bumpRow (h : Nat) (kw : String) (now : String) (r : Row) : Row :=
  if isKey h kw r then { r with count := r.count + 1, last_updated := now } else r

/-- The successful body of `update_keyword_count` (lines 101-127): the
`UPDATE` increments every row matching `(hour, keyword)`; if `rowcount` was
zero, the `INSERT` appends a fresh row with count 1. -/
def upsert (h : Nat) (kw : String) (now : String) (t : Table) : Table :=
  if t.any (isKey h kw) then t.map (bumpRow h kw now)
  else t ++ [⟨h, kw, 1, now⟩]

/-- Model of `init_keyword_db` (lines 47-81).  The whole body is wrapped in
`try/except Exception`, so the function always returns normally (hence the
result type is a state, not `Except`).  On success the `DROP TABLE IF
EXISTS` plus `CREATE TABLE` leave an empty table; on an environment error
(`err = true`, e.g. the storage location is unwritable) the error is only
logged and the database state is left as it was (`none` = the table does
not exist). -/
def init_keyword_db (err : Bool) (db : Option Table) : Option Table :=
  if err then db else some ([] : Table)

/-- Model of `update_keyword_count` (lines 84-129).  The sqlite work is
wrapped in `try/except Exception`, so the function always returns normally.
`err = true` models a sqlite exception during the transaction: the
connection context manager rolls back, leaving the table unchanged.  If the
table does not exist (`db = none`, possible after a failed
`init_keyword_db`), the `UPDATE` itself raises and is likewise swallowed. -/
def update_keyword_count (err : Bool) (h : Nat) (kw : String) (now : String)
    (db : Option Table) : Option Table :=
  if err then db
  else
    match db with
    | none => none
    | some t => some (upsert h kw now t)

/-- First row of the table matching an aggregation key (observation function
used to state the claims; under the UNIQUE constraint it is the unique such
row). -/
def lookupRow (h : Nat) (kw : String) : Table → Option Row
  | [] => none
  | r :: t => if isKey h kw r then some r else lookupRow h kw t

/-- Stored count for a key, zero when no row exists. -/
def getCount (t : Table) (h : Nat) (kw : String) : Nat :=
  match lookupRow h kw t with
  | some r => r.count
  | none => 0

/-- The UNIQUE(hour_of_day, keyword) constraint: keys are pairwise distinct. -/
def uniqKeys (t : Table) : Prop := (t.map keyOf).Nodup

/-- Applying a finite sequence of successful observations
`(hour, keyword, now)` to a table, in order. -/
def applyAll (obs : List (Nat × String × String)) (t : Table) : Table :=
  obs.foldl (fun acc o => upsert o.1 o.2.1 o.2.2 acc) t

/-! ### Model of the live data file and of `consume_messages_from_file`
(lines 175-235). -/

/-- One line of the live data file, abstracted to what the consumer observes:
its byte length (excluding the newline terminator) together with the outcome
of `line.strip()` and `json.loads(line.strip())` — blank after stripping,
a `json.JSONDecodeError`, or a decoded value. -/
inductive PyLine where
  | blank (len : Nat)
  | badJson (len : Nat)
  | okJson (len : Nat) (msg : ParsedJson)
deriving DecidableEq

/-- Byte length of a line, excluding its newline terminator. -/
def lineLen : PyLine → Nat
  | .blank n => n
  | .badJson n => n
  | .okJson n _ => n

/-- Whether a line raises `json.JSONDecodeError` under `json.loads`. -/
def isBadLine : PyLine → Bool
  | .badJson _ => true
  | _ => false

/-- Contents of the live data file: the newline-terminated lines, followed by
an optional unterminated trailing fragment (no newline at end of file). -/
structure FileState where
  lines : List PyLine
  frag : Option PyLine
deriving DecidableEq

/-- Byte offset of the end of the last fully newline-terminated line. -/
def endOfTerminated (f : FileState) : Nat := (f.lines.map (fun l => lineLen l + 1)).sum

/-- Total byte size of the file, which is what `file.tell()` returns after the
`for line in file` loop has reached end of file. -/
def fileSize (f : FileState) : Nat := endOfTerminated f + ((f.frag.map lineLen).getD 0)

/-- The sequence of chunks yielded by Python's `for line in file` from offset
0: every terminated line, and then the trailing fragment if there is one
(Python's line iterator does yield a final line with no terminator). -/
def allLines (f : FileState) : List PyLine := f.lines ++ f.frag.toList

/-- Model of the `for line in file` loop body (lines 204-220) run over a list
of lines, inside the cycle's `try`.  `serr i` tells whether the `i`-th call
to `update_keyword_count` hits a sqlite error (that call catches it
itself).  A blank line is skipped; a line that `json.loads` rejects raises
`json.JSONDecodeError`, which is caught only by the cycle's outer
`except Exception`, i.e. `sys.exit(11)` (`Except.error 11`) — processing
of the remaining lines is abandoned.  A decoded line goes through
`process_message`; a `none` result causes no update. -/
def consumeLines (serr : Nat → Bool) (now : String) :
    List PyLine → Option Table → Nat → Except Nat (Option Table)
  | [], db, _ => .ok db
  | l :: ls, db, i =>
    match l with
    | .blank _ => consumeLines serr now ls db i
    | .badJson _ => .error 11
    | .okJson _ j =>
      match process_message j with
      | none => consumeLines serr now ls db i
      | some (h, kw) => consumeLines serr now ls (update_keyword_count (serr i) h kw now db) (i + 1)

/-- Model of `consume_messages_from_file` (lines 175-235).  It first calls
`init_keyword_db` (line 193), then overwrites its `last_position` argument
with 0 (line 196), so `file.seek(last_position)` reads the whole file.
Opening a missing file raises `FileNotFoundError` → `sys.exit(10)`; any
other exception escaping the `with` block (`readErr` models an I/O error
on open/read; a JSON decode error surfaces the same way) is caught by
`except Exception` → `sys.exit(11)`.  On the success path the function
returns `file.tell()` — the end of the file — after a single pass: the
`return` at line 226 makes the enclosing `while True` run its body at most
once, and the `time.sleep(interval_secs)` at line 235 is unreachable. -/
def consume_messages_from_file (initErr readErr : Bool) (file : Option FileState)
    (serr : Nat → Bool) (now : String) (last_position : Nat) (db : Option Table) :
    Except Nat (Option Table × Nat) :=
  let db1 := init_keyword_db initErr db
  let last_position := 0
  match file with
  | none => .error 10
  | some f =>
    if readErr then .error 11
    else
      match consumeLines serr now (allLines f) db1 last_position with
      | .error e => .error e
      | .ok db2 => .ok (db2, fileSize f)

/-! ### Model of `main` (lines 243-290). -/

/-- Observable fate of the `main` process: terminated via `sys.exit code`
(a `SystemExit` is not an `Exception`, so the `except Exception` in `main`
does not catch the exits raised inside `consume_messages_from_file`), or
ran to completion with the final database state and returned offset. -/
inductive MainOutcome where
  | exited (code : Nat)
  | finished (db : Option Table) (pos : Nat)
deriving DecidableEq

/-- Model of `main` (lines 243-290).  STEP 1: a configuration error exits
with 1.  STEP 2: a failure deleting a pre-existing database file exits with
2.  STEP 3: `init_keyword_db` is called inside `try/except` with
`sys.exit(3)` — but `init_keyword_db` catches every exception internally
and returns normally, so the exit(3) branch is unreachable and `main`
proceeds to STEP 4 regardless of `initErr`.  STEP 4 runs one cycle of
`consume_messages_from_file`; its `sys.exit` codes propagate, and a normal
return falls through the `finally` block to a normal process end. -/
def main (cfgErr delErr initErr readErr : Bool) (file : Option FileState)
    (serr : Nat → Bool) (now : String) : MainOutcome :=
  if cfgErr then .exited 1
  else if delErr then .exited 2
  else
    let db0 := init_keyword_db initErr none
    match consume_messages_from_file initErr readErr file serr now 0 db0 with
    | .error c => .exited c
    | .ok (db, pos) => .finished db pos

/-! ### Helper lemmas about the table operations. -/

theorem keyOf_bumpRow (h : Nat) (kw now : String) (r : Row) :
    keyOf (bumpRow h kw now r) = keyOf r := by
  unfold bumpRow
  split <;> rfl

theorem isKey_bumpRow (h' : Nat) (kw' : String) (h : Nat) (kw now : String) (r : Row) :
    isKey h' kw' (bumpRow h kw now r) = isKey h' kw' r := by
  unfold isKey
  rw [keyOf_bumpRow]

theorem bumpRow_eq_self (h : Nat) (kw now : String) (r : Row) (hne : keyOf r ≠ (h, kw)) :
    bumpRow h kw now r = r := by
  unfold bumpRow isKey
  simp [hne]

theorem bumpRow_eq_inc (h : Nat) (kw now : String) (r : Row) (heq : keyOf r = (h, kw)) :
    bumpRow h kw now r = { r with count := r.count + 1, last_updated := now } := by
  unfold bumpRow isKey
  simp [heq]

theorem lookupRow_map_bumpRow (h' : Nat) (kw' : String) (h : Nat) (kw now : String) (t : Table) :
    lookupRow h' kw' (t.map (bumpRow h kw now)) = (lookupRow h' kw' t).map (bumpRow h kw now) := by
  induction t with
  | nil => rfl
  | cons r t ih =>
    simp only [List.map_cons, lookupRow, isKey_bumpRow]
    split <;> simp [ih]

theorem lookupRow_isKey (h : Nat) (kw : String) (t : Table) (r : Row)
    (hl : lookupRow h kw t = some r) : keyOf r = (h, kw) := by
  induction t with
  | nil => exact absurd hl (by simp [lookupRow])
  | cons x t ih =>
    unfold lookupRow at hl
    by_cases hk : isKey h kw x
    · simp [hk] at hl
      subst hl
      exact of_decide_eq_true hk
    · simp [hk] at hl
      exact ih hl

theorem lookupRow_none_iff_any (h : Nat) (kw : String) (t : Table) :
    lookupRow h kw t = none ↔ t.any (isKey h kw) = false := by
  induction t with
  | nil => simp [lookupRow]
  | cons x t ih =>
    unfold lookupRow
    by_cases hk : isKey h kw x <;> simp [hk, ih]

theorem lookupRow_append_single (h : Nat) (kw : String) (t : Table) (r : Row) :
    lookupRow h kw (t ++ [r]) =
      match lookupRow h kw t with
      | some x => some x
      | none => if isKey h kw r then some r else none := by
  induction t with
  | nil => rfl
  | cons x t ih =>
    unfold lookupRow
    by_cases hk : isKey h kw x <;> simp [hk, ih]

theorem notMem_keys_of_any_false (h : Nat) (kw : String) (t : Table)
    (ha : t.any (isKey h kw) = false) : (h, kw) ∉ t.map keyOf := by
  intro hmem
  obtain ⟨r, hr, hkey⟩ := List.mem_map.mp hmem
  have hk : isKey h kw r = true := decide_eq_true hkey
  have := List.any_eq_true.mpr ⟨r, hr, hk⟩
  rw [ha] at this
  exact Bool.false_ne_true this

theorem getCount_upsert (h : Nat) (kw now : String) (t : Table) (h' : Nat) (kw' : String) :
    getCount (upsert h kw now t) h' kw' =
      if (h', kw') = (h, kw) then getCount t h' kw' + 1 else getCount t h' kw' := by
  unfold upsert
  by_cases ha : t.any (isKey h kw) = true
  · simp only [ha, if_true]
    unfold getCount
    rw [lookupRow_map_bumpRow]
    by_cases hsame : (h', kw') = (h, kw)
    · have h1 : h' = h := congrArg Prod.fst hsame
      have h2 : kw' = kw := congrArg Prod.snd hsame
      subst h1
      subst h2
      rw [if_pos rfl]
      cases hl : lookupRow h' kw' t with
      | none => exact absurd ((lookupRow_none_iff_any h' kw' t).mp hl) (by simp [ha])
      | some r =>
        show (bumpRow h' kw' now r).count = r.count + 1
        rw [bumpRow_eq_inc h' kw' now r (lookupRow_isKey h' kw' t r hl)]
    · rw [if_neg hsame]
      cases hl : lookupRow h' kw' t with
      | none => simp
      | some r =>
        have hkey : keyOf r = (h', kw') := lookupRow_isKey h' kw' t r hl
        show (bumpRow h kw now r).count = r.count
        rw [bumpRow_eq_self h kw now r (by rw [hkey]; exact hsame)]
  · have ha' : t.any (isKey h kw) = false := by
      cases hb : t.any (isKey h kw)
      · rfl
      · exact absurd hb ha
    simp only [ha', Bool.false_eq_true, if_false]
    unfold getCount
    rw [lookupRow_append_single]
    by_cases hsame : (h', kw') = (h, kw)
    · have h1 : h' = h := congrArg Prod.fst hsame
      have h2 : kw' = kw := congrArg Prod.snd hsame
      subst h1
      subst h2
      rw [if_pos rfl, (lookupRow_none_iff_any h' kw' t).mpr ha']
      simp [isKey, keyOf]
    · rw [if_neg hsame]
      cases hl : lookupRow h' kw' t with
      | some r => simp
      | none =>
        have hk : isKey h' kw' (⟨h, kw, 1, now⟩ : Row) = false := by
          simp only [isKey, keyOf, decide_eq_false_iff_not]
          intro hc
          exact hsame hc.symm
        simp [hk]

theorem getCount_applyAll (obs : List (Nat × String × String)) (t : Table) (h : Nat)
    (kw : String) :
    getCount (applyAll obs t) h kw =
      getCount t h kw + (obs.filter (fun o => decide ((o.1, o.2.1) = (h, kw)))).length := by
  induction obs generalizing t with
  | nil => simp [applyAll]
  | cons o obs ih =>
    have hstep : applyAll (o :: obs) t = applyAll obs (upsert o.1 o.2.1 o.2.2 t) := rfl
    rw [hstep, ih, getCount_upsert]
    by_cases hsame : (o.1, o.2.1) = (h, kw)
    · have hd : (decide ((o.1, o.2.1) = (h, kw))) = true := decide_eq_true hsame
      simp only [List.filter_cons, hd, if_true, List.length_cons]
      rw [if_pos hsame.symm]
      omega
    · have hd : (decide ((o.1, o.2.1) = (h, kw))) = false := decide_eq_false hsame
      simp only [List.filter_cons, hd, Bool.false_eq_true, if_false]
      rw [if_neg (fun hc => hsame hc.symm)]

theorem uniqKeys_upsert (h : Nat) (kw now : String) (t : Table) (hu : uniqKeys t) :
    uniqKeys (upsert h kw now t) := by
  unfold upsert
  by_cases ha : t.any (isKey h kw) = true
  · simp only [ha, if_true]
    unfold uniqKeys
    rw [List.map_map]
    have : t.map (keyOf ∘ bumpRow h kw now) = t.map keyOf :=
      List.map_congr_left (fun r _ => keyOf_bumpRow h kw now r)
    rw [this]
    exact hu
  · have ha' : t.any (isKey h kw) = false := by
      cases hb : t.any (isKey h kw)
      · rfl
      · exact absurd hb ha
    simp only [ha', Bool.false_eq_true, if_false]
    unfold uniqKeys
    rw [List.map_append]
    rw [List.nodup_append]
    refine ⟨hu, List.nodup_singleton _, ?_⟩
    intro p hp hq
    simp only [List.map_cons, List.map_nil, List.mem_singleton] at hq
    subst hq
    exact notMem_keys_of_any_false h kw t ha' hp

theorem counts_pos_upsert (h : Nat) (kw now : String) (t : Table)
    (hc : ∀ r ∈ t, 1 ≤ r.count) : ∀ r ∈ upsert h kw now t, 1 ≤ r.count := by
  intro r hr
  unfold upsert at hr
  by_cases ha : t.any (isKey h kw) = true
  · simp only [ha, if_true] at hr
    obtain ⟨x, hx, hbx⟩ := List.mem_map.mp hr
    subst hbx
    unfold bumpRow
    split
    · simp only []
      have := hc x hx
      omega
    · exact hc x hx
  · have ha' : t.any (isKey h kw) = false := by
      cases hb : t.any (isKey h kw)
      · rfl
      · exact absurd hb ha
    simp only [ha', Bool.false_eq_true, if_false] at hr
    rcases List.mem_append.mp hr with hmem | hmem
    · exact hc r hmem
    · simp only [List.mem_singleton] at hmem
      subst hmem
      exact le_refl 1

/-! ### Helper lemmas about the consume cycle. -/

theorem consumeLines_nil (serr : Nat → Bool) (now : String) (db : Option Table) (i : Nat) :
    consumeLines serr now [] db i = .ok db := rfl

theorem consumeLines_blank (serr : Nat → Bool) (now : String) (n : Nat) (ls : List PyLine)
    (db : Option Table) (i : Nat) :
    consumeLines serr now (PyLine.blank n :: ls) db i = consumeLines serr now ls db i := rfl

theorem consumeLines_badJson (serr : Nat → Bool) (now : String) (n : Nat) (ls : List PyLine)
    (db : Option Table) (i : Nat) :
    consumeLines serr now (PyLine.badJson n :: ls) db i = .error 11 := rfl

theorem consumeLines_okJson (serr : Nat → Bool) (now : String) (n : Nat) (j : ParsedJson)
    (ls : List PyLine) (db : Option Table) (i : Nat) :
    consumeLines serr now (PyLine.okJson n j :: ls) db i =
      match process_message j with
      | none => consumeLines serr now ls db i
      | some (h, kw) =>
        consumeLines serr now ls (update_keyword_count (serr i) h kw now db) (i + 1) := rfl

theorem consumeLines_error_eq (serr : Nat → Bool) (now : String) (ls : List PyLine)
    (db : Option Table) (i e : Nat) (he : consumeLines serr now ls db i = .error e) :
    e = 11 := by
  induction ls generalizing db i with
  | nil => exact absurd he (by simp [consumeLines_nil])
  | cons l ls ih =>
    cases l with
    | blank n =>
      rw [consumeLines_blank] at he
      exact ih db i he
    | badJson n =>
      have h11 : (Except.error 11 : Except Nat (Option Table)) = .error e := he
      injection h11 with h
      exact h.symm
    | okJson n j =>
      rw [consumeLines_okJson] at he
      cases hpm : process_message j with
      | none =>
        rw [hpm] at he
        exact ih db i he
      | some pr =>
        rw [hpm] at he
        exact ih _ (i + 1) he

theorem consumeLines_db_none (serr : Nat → Bool) (now : String) (ls : List PyLine) (i : Nat)
    (hnb : ∀ l ∈ ls, isBadLine l = false) :
    consumeLines serr now ls none i = .ok none := by
  induction ls generalizing i with
  | nil => rfl
  | cons l ls ih =>
    cases l with
    | blank n =>
      rw [consumeLines_blank]
      exact ih i (fun x hx => hnb x (List.mem_cons_of_mem _ hx))
    | badJson n => exact absurd (hnb _ (List.mem_cons_self _ _)) (by simp [isBadLine])
    | okJson n j =>
      rw [consumeLines_okJson]
      cases hpm : process_message j with
      | none => exact ih i (fun x hx => hnb x (List.mem_cons_of_mem _ hx))
      | some pr =>
        have hupd : update_keyword_count (serr i) pr.1 pr.2 now none = none := by
          unfold update_keyword_count
          split <;> rfl
        show consumeLines serr now ls (update_keyword_count (serr i) pr.1 pr.2 now none) (i + 1) = .ok none
        rw [hupd]
        exact ih (i + 1) (fun x hx => hnb x (List.mem_cons_of_mem _ hx))

theorem consume_ok_pos (initErr readErr : Bool) (f : FileState) (serr : Nat → Bool)
    (now : String) (p : Nat) (db db2 : Option Table) (pos : Nat)
    (heq : consume_messages_from_file initErr readErr (some f) serr now p db = .ok (db2, pos)) :
    pos = fileSize f := by
  simp only [consume_messages_from_file] at heq
  cases readErr with
  | true => simp at heq
  | false =>
    simp only [Bool.false_eq_true, if_false] at heq
    cases hcl : consumeLines serr now (allLines f) (init_keyword_db initErr db) 0 with
    | error e =>
      rw [hcl] at heq
      exact absurd heq (by simp)
    | ok db3 =>
      rw [hcl] at heq
      have h1 : (db3, fileSize f) = (db2, pos) := by injection heq
      exact (congrArg Prod.snd h1).symm

theorem consume_error_code (initErr readErr : Bool) (file : Option FileState)
    (serr : Nat → Bool) (now : String) (p : Nat) (db : Option Table) (e : Nat)
    (he : consume_messages_from_file initErr readErr file serr now p db = .error e) :
    e = 10 ∨ e = 11 := by
  cases file with
  | none =>
    have h10 : (Except.error 10 : Except Nat (Option Table × Nat)) = .error e := he
    injection h10 with h
    exact Or.inl h.symm
  | some f =>
    simp only [consume_messages_from_file] at he
    cases readErr with
    | true =>
      simp only [if_true] at he
      injection he with h
      exact Or.inr h.symm
    | false =>
      simp only [Bool.false_eq_true, if_false] at he
      cases hcl : consumeLines serr now (allLines f) (init_keyword_db initErr db) 0 with
      | error e' =>
        rw [hcl] at he
        have : (Except.error e' : Except Nat (Option Table × Nat)) = .error e := he
        injection this with h
        exact Or.inr (h ▸ consumeLines_error_eq serr now (allLines f) (init_keyword_db initErr db) 0 e' hcl)
      | ok db3 =>
        rw [hcl] at he
        exact absurd he (by simp)

/-! ### Claim theorems. -/

/-- C1 counterexample: the claim that a line which is not valid JSON is logged and
skipped without terminating the process is false.  `json.loads` at line 209 is
not guarded per line; its `json.JSONDecodeError` is caught only by the cycle's
`except Exception`, which calls `sys.exit(11)`.  Concretely, a file whose
first line is malformed and whose second line is a perfectly valid record
makes the cycle exit with code 11, and the second line is never processed. -/
theorem malformed_line_fatal_cex :
    consume_messages_from_file false false
      (some ⟨[PyLine.badJson 9,
              PyLine.okJson 62 (ParsedJson.obj (some "2025-01-29 14:35:20") (some "meme"))],
             none⟩)
      (fun _ => false) "2025-01-29 14:40:00" 0 (some []) = Except.error 11 := rfl

/-- C1 (amended): a non-blank line that is not valid JSON terminates the process
with exit code 11, abandoning the rest of the cycle; only lines that decode but
lack required fields or have an unparseable timestamp (`process_message`
returns `None`) are skipped with the cycle continuing, as are blank lines. -/
theorem malformed_line_exits_cycle (serr : Nat → Bool) (now : String) (n : Nat)
    (ls : List PyLine) (db : Option Table) (i : Nat) :
    consumeLines serr now (PyLine.badJson n :: ls) db i = Except.error 11 ∧
    (∀ m j, process_message j = none →
      consumeLines serr now (PyLine.okJson m j :: ls) db i = consumeLines serr now ls db i) ∧
    consumeLines serr now (PyLine.blank n :: ls) db i = consumeLines serr now ls db i := by
  refine ⟨rfl, ?_, rfl⟩
  intro m j hpm
  rw [consumeLines_okJson]
  simp only [hpm]

/-- Witness for the amended C1 at a concrete input: a decoded line whose message
is not a dict is skipped and the next (blank) line is still reached. -/
theorem malformed_line_exits_cycle_witness :
    consumeLines (fun _ => false) "t"
        [PyLine.okJson 2 ParsedJson.nonDict, PyLine.blank 0] (some []) 0 =
      consumeLines (fun _ => false) "t" [PyLine.blank 0] (some []) 0 :=
  (malformed_line_exits_cycle (fun _ => false) "t" 0 [PyLine.blank 0] (some []) 0).2.1 2
    ParsedJson.nonDict (by decide)

/-- C2: for every table and every call of `update_keyword_count` on the success
path, if a row for the key exists its count becomes count + 1 and its
`last_updated` becomes the current time, otherwise a fresh row
`(hour, keyword, 1, now)` is inserted, and no other row is changed (rows with
a different key look up unchanged and remain members of the table). -/
theorem update_keyword_count_semantics (h : Nat) (kw now : String) (t : Table) :
    update_keyword_count false h kw now (some t) = some (upsert h kw now t) ∧
    (∀ r, lookupRow h kw t = some r →
      lookupRow h kw (upsert h kw now t) =
        some { r with count := r.count + 1, last_updated := now }) ∧
    (lookupRow h kw t = none → upsert h kw now t = t ++ [⟨h, kw, 1, now⟩]) ∧
    (∀ h' kw', (h', kw') ≠ (h, kw) →
      lookupRow h' kw' (upsert h kw now t) = lookupRow h' kw' t) ∧
    (∀ r ∈ t, keyOf r ≠ (h, kw) → r ∈ upsert h kw now t) := by
  refine ⟨rfl, ?_, ?_, ?_, ?_⟩
  · intro r hl
    have ha : t.any (isKey h kw) = true := by
      cases hb : t.any (isKey h kw)
      · rw [(lookupRow_none_iff_any h kw t).mpr hb] at hl
        exact absurd hl (by simp)
      · rfl
    unfold upsert
    rw [if_pos ha, lookupRow_map_bumpRow, hl]
    show some (bumpRow h kw now r) = _
    rw [bumpRow_eq_inc h kw now r (lookupRow_isKey h kw t r hl)]
  · intro hl
    have ha : t.any (isKey h kw) = false := (lookupRow_none_iff_any h kw t).mp hl
    unfold upsert
    rw [if_neg (by simp [ha])]
  · intro h' kw' hne
    unfold upsert
    by_cases ha : t.any (isKey h kw) = true
    · rw [if_pos ha, lookupRow_map_bumpRow]
      cases hl : lookupRow h' kw' t with
      | none => rfl
      | some r =>
        show some (bumpRow h kw now r) = some r
        rw [bumpRow_eq_self h kw now r
          (by rw [lookupRow_isKey h' kw' t r hl]; exact hne)]
    · rw [if_neg ha, lookupRow_append_single]
      cases hl : lookupRow h' kw' t with
      | some r => rfl
      | none =>
        have hk : isKey h' kw' (⟨h, kw, 1, now⟩ : Row) = false := by
          simp only [isKey, keyOf, decide_eq_false_iff_not]
          intro hc
          exact hne hc.symm
        simp [hk]
  · intro r hr hne
    unfold upsert
    by_cases ha : t.any (isKey h kw) = true
    · rw [if_pos ha]
      have hm : bumpRow h kw now r ∈ t.map (bumpRow h kw now) := List.mem_map_of_mem _ hr
      rwa [bumpRow_eq_self h kw now r hne] at hm
    · rw [if_neg ha]
      exact List.mem_append_left _ hr

/-- Witness for C2 at a concrete input: updating an existing row for
(14, "meme") increments its count from 1 to 2 and refreshes `last_updated`. -/
theorem update_keyword_count_semantics_witness :
    lookupRow 14 "meme" (upsert 14 "meme" "t2" [⟨14, "meme", 1, "t1"⟩]) =
      some ⟨14, "meme", 2, "t2"⟩ :=
  (update_keyword_count_semantics 14 "meme" "t2" [⟨14, "meme", 1, "t1"⟩]).2.1
    ⟨14, "meme", 1, "t1"⟩ (by decide)

/-- C10: a sqlite error inside `update_keyword_count` is caught by its own
`try/except`; the call returns normally (it is a total function on the table
state) with the table unchanged — the observation is lost — and the consume
loop proceeds with the next line. -/
theorem storage_error_swallowed (h : Nat) (kw now : String) (db : Option Table) :
    update_keyword_count true h kw now db = db ∧
    (∀ (serr : Nat → Bool) (i n : Nat) (j : ParsedJson) (h2 : Nat) (kw2 : String)
        (ls : List PyLine) (db2 : Option Table),
      process_message j = some (h2, kw2) → serr i = true →
      consumeLines serr now (PyLine.okJson n j :: ls) db2 i =
        consumeLines serr now ls db2 (i + 1)) := by
  constructor
  · rfl
  · intro serr i n j h2 kw2 ls db2 hpm hserr
    rw [consumeLines_okJson]
    simp only [hpm, hserr, update_keyword_count, if_true]

/-- Witness for C10 at a concrete input: with the storage erroring on the first
increment, a valid line leaves the table untouched and the cycle moves on. -/
theorem storage_error_swallowed_witness :
    consumeLines (fun _ => true) "t"
        [PyLine.okJson 9 (ParsedJson.obj (some "2025-01-29 14:35:20") (some "meme"))]
        (some []) 0 =
      consumeLines (fun _ => true) "t" [] (some []) 1 :=
  (storage_error_swallowed 14 "meme" "t" (some [])).2 (fun _ => true) 0 9
    (ParsedJson.obj (some "2025-01-29 14:35:20") (some "meme")) 14 "meme" [] (some [])
    (by decide) rfl

/-- C3: starting from the freshly initialized empty table, the final stored
count for each (hour, keyword) key equals the number of observations of that
key in the sequence, and any permutation of the sequence yields the same final
count for every key. -/
theorem final_count_matches_observations (obs : List (Nat × String × String)) (h : Nat)
    (kw : String) :
    getCount (applyAll obs []) h kw =
      (obs.filter (fun o => decide ((o.1, o.2.1) = (h, kw)))).length ∧
    (∀ obs', obs.Perm obs' →
      getCount (applyAll obs' []) h kw = getCount (applyAll obs []) h kw) := by
  constructor
  · have h0 : getCount ([] : Table) h kw = 0 := rfl
    rw [getCount_applyAll obs [] h kw, h0, Nat.zero_add]
  · intro obs' hperm
    rw [getCount_applyAll obs' [] h kw, getCount_applyAll obs [] h kw]
    rw [(hperm.filter (fun o => decide ((o.1, o.2.1) = (h, kw)))).length_eq]

/-- Witness for C3 at a concrete input: two observations in either order give
the same count for (14, "meme"). -/
theorem final_count_matches_observations_witness :
    getCount (applyAll [(14, "meme", "t2"), (3, "cat", "t1")] []) 14 "meme" =
      getCount (applyAll [(3, "cat", "t1"), (14, "meme", "t2")] []) 14 "meme" :=
  (final_count_matches_observations [(3, "cat", "t1"), (14, "meme", "t2")] 14 "meme").2
    [(14, "meme", "t2"), (3, "cat", "t1")] (by decide)

/-- C4: a cycle of `consume_messages_from_file` ignores its `last_position`
argument (the result is the same for any two values of it, since line 196
overwrites it with 0), on success returns the end-of-read offset
`file.tell()` = the file size, and on every input terminates its single pass
with either `sys.exit(10)`, `sys.exit(11)`, or that return — the `while True`
never reaches `time.sleep`, so no second pass happens on a successful read. -/
theorem cycle_single_pass (initErr readErr : Bool) (file : Option FileState)
    (serr : Nat → Bool) (now : String) (p q : Nat) (db : Option Table) :
    consume_messages_from_file initErr readErr file serr now p db =
      consume_messages_from_file initErr readErr file serr now q db ∧
    (∀ f db2 pos, file = some f →
      consume_messages_from_file initErr readErr file serr now p db = .ok (db2, pos) →
      pos = fileSize f) ∧
    (consume_messages_from_file initErr readErr file serr now p db = .error 10 ∨
     consume_messages_from_file initErr readErr file serr now p db = .error 11 ∨
     ∃ f db2, file = some f ∧
       consume_messages_from_file initErr readErr file serr now p db =
         .ok (db2, fileSize f)) := by
  refine ⟨rfl, ?_, ?_⟩
  · intro f db2 pos hfile heq
    subst hfile
    exact consume_ok_pos initErr readErr f serr now p db db2 pos heq
  · cases hfile : file with
    | none => exact Or.inl rfl
    | some f =>
      cases hre : readErr with
      | true => exact Or.inr (Or.inl rfl)
      | false =>
        cases hcl : consumeLines serr now (allLines f) (init_keyword_db initErr db) 0 with
        | error e =>
          refine Or.inr (Or.inl ?_)
          have he : e = 11 :=
            consumeLines_error_eq serr now (allLines f) (init_keyword_db initErr db) 0 e hcl
          simp only [consume_messages_from_file, Bool.false_eq_true, if_false]
          rw [hcl, he]
        | ok db3 =>
          refine Or.inr (Or.inr ⟨f, db3, rfl, ?_⟩)
          simp only [consume_messages_from_file, Bool.false_eq_true, if_false]
          rw [hcl]

/-- Witness for C4 at a concrete input: with `last_position = 7` the returned
offset is still the full file size 5 of a file read from offset 0. -/
theorem cycle_single_pass_witness :
    (5 : Nat) = fileSize ⟨[PyLine.blank 4], none⟩ :=
  (cycle_single_pass false false (some ⟨[PyLine.blank 4], none⟩) (fun _ => false) "t" 7 0
      (some [])).2.1 ⟨[PyLine.blank 4], none⟩ (some []) 5 rfl rfl

/-- C5: `process_message` returns `None` exactly when `timestamp` or
`keyword_mentioned` is absent or empty, or the timestamp fails
`strptime("%Y-%m-%d %H:%M:%S")` (or the message is not a dict); otherwise it
returns the timestamp's hour together with the keyword — in particular hour
14, 0 and 23 on the three boundary examples — and a `None` result causes no
increment for that line. -/
theorem process_message_spec :
    process_message ParsedJson.nonDict = none ∧
    (∀ kw, process_message (ParsedJson.obj none kw) = none) ∧
    (∀ ts, process_message (ParsedJson.obj ts none) = none) ∧
    (∀ kw, process_message (ParsedJson.obj (some "") kw) = none) ∧
    (∀ ts, process_message (ParsedJson.obj ts (some "")) = none) ∧
    (∀ ts kw, strptimeYmdHms ts = none →
      process_message (ParsedJson.obj (some ts) (some kw)) = none) ∧
    (∀ ts kw dt, strptimeYmdHms ts = some dt → kw ≠ "" →
      process_message (ParsedJson.obj (some ts) (some kw)) = some (dt.hour, kw)) ∧
    process_message (ParsedJson.obj (some "2025-01-29 14:35:20") (some "k")) =
      some (14, "k") ∧
    process_message (ParsedJson.obj (some "2025-01-29 00:05:00") (some "k")) =
      some (0, "k") ∧
    process_message (ParsedJson.obj (some "2025-01-29 23:59:59") (some "k")) =
      some (23, "k") ∧
    (∀ (serr : Nat → Bool) now n j ls (db : Option Table) i, process_message j = none →
      consumeLines serr now (PyLine.okJson n j :: ls) db i = consumeLines serr now ls db i) := by
  refine ⟨rfl, ?_, ?_, ?_, ?_, ?_, ?_, by decide, by decide, by decide, ?_⟩
  · intro kw
    cases kw <;> rfl
  · intro ts
    cases ts <;> rfl
  · intro kw
    cases kw <;> rfl
  · intro ts
    cases ts with
    | none => rfl
    | some t =>
      simp only [process_message]
      rw [show String.isEmpty "" = true from rfl, Bool.or_true]
      rfl
  · intro ts kw hn
    simp only [process_message]
    split
    · rfl
    · rw [hn]
  · intro ts kw dt hsome hkw
    have hts : ts ≠ "" := by
      intro hcontra
      subst hcontra
      have habs : (none : Option PyDateTime) = some dt := hsome
      exact absurd habs (by simp)
    have h1 : ts.isEmpty = false := by
      cases he : ts.isEmpty
      · rfl
      · exact absurd ((String.isEmpty_iff ts).mp he) hts
    have h2 : kw.isEmpty = false := by
      cases he : kw.isEmpty
      · rfl
      · exact absurd ((String.isEmpty_iff kw).mp he) hkw
    simp only [process_message, h1, h2, Bool.or_self, Bool.false_eq_true, if_false, hsome]
  · intro serr now n j ls db i hpm
    rw [consumeLines_okJson]
    simp only [hpm]

/-- Witness for C5 at concrete inputs: an unparseable timestamp yields `None`
and the boundary timestamp yields hour 14 with its keyword. -/
theorem process_message_spec_witness :
    process_message (ParsedJson.obj (some "nonsense") (some "meme")) = none ∧
    process_message (ParsedJson.obj (some "2025-01-29 14:35:20") (some "meme")) =
      some (14, "meme") :=
  ⟨process_message_spec.2.2.2.2.2.1 "nonsense" "meme" (by decide),
   process_message_spec.2.2.2.2.2.2.1 "2025-01-29 14:35:20" "meme"
     ⟨2025, 1, 29, 14, 35, 20⟩ (by decide) (by decide)⟩

/-- C6 counterexample: the claim that an unterminated trailing line is never
consumed is false.  Python's line iterator does yield the final unterminated
fragment, and `file.tell()` after the loop is the end of file.  Concretely, a
file whose only content is a 62-byte fragment holding a valid record gets that
fragment processed (the table gains its row with count 1) and the cycle
returns offset 62, although the end of the last fully-terminated line is 0. -/
theorem trailing_fragment_consumed_cex :
    consume_messages_from_file false false
        (some ⟨[], some (PyLine.okJson 62
          (ParsedJson.obj (some "2025-01-29 14:35:20") (some "meme")))⟩)
        (fun _ => false) "2025-01-29 14:40:00" 0 (some []) =
      Except.ok (some [⟨14, "meme", 1, "2025-01-29 14:40:00"⟩], 62) ∧
    endOfTerminated ⟨[], some (PyLine.okJson 62
      (ParsedJson.obj (some "2025-01-29 14:35:20") (some "meme")))⟩ = 0 :=
  ⟨rfl, rfl⟩

/-- C6 (amended): the cycle consumes the unterminated trailing fragment like
any other line, and the offset it returns on success is the end of the whole
file — strictly past the end of the last fully-terminated line whenever a
non-empty fragment exists. -/
theorem offset_is_end_of_file (initErr readErr : Bool) (f : FileState) (serr : Nat → Bool)
    (now : String) (p : Nat) (db db2 : Option Table) (pos : Nat)
    (heq : consume_messages_from_file initErr readErr (some f) serr now p db = .ok (db2, pos)) :
    pos = fileSize f ∧
    (∀ l, f.frag = some l → 0 < lineLen l → endOfTerminated f < pos) := by
  have hpos : pos = fileSize f := consume_ok_pos initErr readErr f serr now p db db2 pos heq
  refine ⟨hpos, ?_⟩
  intro l hfrag hlen
  rw [hpos]
  unfold fileSize
  rw [hfrag]
  show endOfTerminated f < endOfTerminated f + lineLen l
  omega

/-- Witness for the amended C6 at a concrete input: a file holding only a
3-byte blank fragment makes the cycle return offset 3, past offset 0 where
the last terminated line ends. -/
theorem offset_is_end_of_file_witness :
    (3 : Nat) = fileSize ⟨[], some (PyLine.blank 3)⟩ ∧
      endOfTerminated ⟨[], some (PyLine.blank 3)⟩ < 3 := by
  have h := offset_is_end_of_file false false ⟨[], some (PyLine.blank 3)⟩ (fun _ => false)
    "t" 0 (some []) (some []) 3 rfl
  exact ⟨h.1, h.2 (PyLine.blank 3) rfl (by decide)⟩

/-- C7: every table reachable from the freshly initialized empty table by
`update_keyword_count` operations has at most one row per (hour, keyword)
key and every row's count is at least 1. -/
theorem table_invariant (obs : List (Nat × String × String)) :
    uniqKeys (applyAll obs []) ∧ ∀ r ∈ applyAll obs [], 1 ≤ r.count := by
  have key : ∀ (obs : List (Nat × String × String)) (t : Table),
      uniqKeys t → (∀ r ∈ t, 1 ≤ r.count) →
      uniqKeys (applyAll obs t) ∧ ∀ r ∈ applyAll obs t, 1 ≤ r.count := by
    intro obs
    induction obs with
    | nil => exact fun t hu hc => ⟨hu, hc⟩
    | cons o obs ih =>
      intro t hu hc
      exact ih (upsert o.1 o.2.1 o.2.2 t) (uniqKeys_upsert o.1 o.2.1 o.2.2 t hu)
        (counts_pos_upsert o.1 o.2.1 o.2.2 t hc)
  exact key obs [] (by simp [uniqKeys]) (by simp)

/-- Witness for C7 at a concrete input: after one observation the table has
distinct keys and its single row has count 1. -/
theorem table_invariant_witness :
    uniqKeys (applyAll [(14, "meme", "t1")] []) ∧
      1 ≤ (Row.mk 14 "meme" 1 "t1").count :=
  ⟨(table_invariant [(14, "meme", "t1")]).1,
   (table_invariant [(14, "meme", "t1")]).2 ⟨14, "meme", 1, "t1"⟩ (by decide)⟩

/-- C8: a missing source file makes the cycle terminate with `sys.exit(10)`,
which is non-zero and distinct from the non-zero code 11 used for every other
read error during the cycle. -/
theorem exit_codes_distinct (initErr : Bool) (serr : Nat → Bool) (now : String) (p : Nat)
    (db : Option Table) (f : FileState) :
    consume_messages_from_file initErr false none serr now p db = Except.error 10 ∧
    consume_messages_from_file initErr true (some f) serr now p db = Except.error 11 ∧
    (10 : Nat) ≠ 0 ∧ (11 : Nat) ≠ 0 ∧ (10 : Nat) ≠ 11 :=
  ⟨rfl, rfl, by decide, by decide, by decide⟩

/-- C9 counterexample: the claim that a storage-initialization failure at
process start terminates the process is false.  `init_keyword_db` catches
every exception internally and returns normally, so `main`'s
`sys.exit(3)` never fires: with the initialization failing and an empty
source file, `main` runs the consume cycle to completion with no table. -/
theorem init_failure_not_fatal_cex :
    main false false true false (some ⟨[], none⟩) (fun _ => false) "t" =
      MainOutcome.finished none 0 := rfl

/-- C9 (amended): a storage-initialization failure is logged inside
`init_keyword_db`, which returns normally leaving no table; `main` never
exits with code 3 and proceeds to the consume cycle regardless, and when the
cycle itself hits no fatal error the process finishes having consumed the
whole file while every observation is lost against the missing table. -/
theorem init_failure_continues (initErr : Bool) (f : FileState) (serr : Nat → Bool)
    (now : String) :
    init_keyword_db true none = none ∧
    (∀ readErr file, main false false initErr readErr file serr now ≠ MainOutcome.exited 3) ∧
    ((∀ l ∈ allLines f, isBadLine l = false) →
      main false false true false (some f) serr now =
        MainOutcome.finished none (fileSize f)) := by
  refine ⟨rfl, ?_, ?_⟩
  · intro readErr file hcontra
    simp only [main, Bool.false_eq_true, if_false] at hcontra
    cases hc : consume_messages_from_file initErr readErr file serr now 0
        (init_keyword_db initErr none) with
    | error c =>
      rw [hc] at hcontra
      have h3 : c = 3 := by injection hcontra
      rcases consume_error_code initErr readErr file serr now 0
          (init_keyword_db initErr none) c hc with h | h <;> omega
    | ok pr =>
      rw [hc] at hcontra
      exact absurd hcontra (by simp)
  · intro hnb
    have hcl : consumeLines serr now (allLines f) none 0 = .ok none :=
      consumeLines_db_none serr now (allLines f) 0 hnb
    have hcons : consume_messages_from_file true false (some f) serr now 0 none =
        .ok (none, fileSize f) := by
      simp only [consume_messages_from_file, init_keyword_db, if_true, Bool.false_eq_true,
        if_false]
      rw [hcl]
    simp only [main, Bool.false_eq_true, if_false, init_keyword_db, if_true]
    rw [hcons]

/-- Witness for the amended C9 at a concrete input: with the initialization
failing, `main` still consumes a one-line file to its end and finishes. -/
theorem init_failure_continues_witness :
    main false false true false
        (some ⟨[PyLine.okJson 9 (ParsedJson.obj (some "2025-01-29 14:35:20") (some "meme"))],
               none⟩)
        (fun _ => false) "t" =
      MainOutcome.finished none
        (fileSize ⟨[PyLine.okJson 9 (ParsedJson.obj (some "2025-01-29 14:35:20") (some "meme"))],
                   none⟩) :=
  (init_failure_continues true
      ⟨[PyLine.okJson 9 (ParsedJson.obj (some "2025-01-29 14:35:20") (some "meme"))], none⟩
      (fun _ => false) "t").2.2 (by decide)

end ConsumerWebb
